import Mathlib

/-!
Shallow embedding of `src/app.py` (salary-bracket prediction app) and proofs
about the behaviour its specification claims.  Machine data (pandas dataframe
rows, the predictor, the model registry) is embedded as plain Lean data.
-/

/-- One row of the reference dataset `data/template.csv` (columns used by the
app: `idade, genero, pcd, ufOndeMora, cargoAtual, nivel,
tempoDeExperienciaDados, tempoDeExperienciaEmTi`). -/
structure Row where
  idade : Int
  genero : String
  pcd : String
  ufOndeMora : String
  cargoAtual : String
  nivel : String
  tempoDeExperienciaDados : String
  tempoDeExperienciaEmTi : String
deriving DecidableEq

/-- The values collected by the form (`idade, genero, pcd, uf, cargo, nivel,
tempo_exp_dados, tempo_exp_ti` in `app.py`). -/
structure UserInput where
  idade : Int
  genero : String
  pcd : String
  uf : String
  cargo : String
  nivel : String
  tempo_exp_dados : String
  tempo_exp_ti : String
deriving DecidableEq

/-- A cell of the single-row dataframe `user_data`: either the integer `idade`
or one of the seven string-valued fields. -/
inductive FieldValue where
  | int (i : Int)
  | str (s : String)
deriving DecidableEq

/-- Embedding of Python `s.split("- ")`: greedy left-to-right splitting of a
character list at each non-overlapping occurrence of the separator `"- "`
(`salario_pred.split("- ")` at `app.py:218`). -/
def splitDash : List Char → List (List Char)
  | [] => [[]]
  | [c] => [[c]]
  | c1 :: c2 :: rest =>
    if c1 = '-' ∧ c2 = ' ' then
      [] :: splitDash rest
    else
      match splitDash (c2 :: rest) with
      | [] => [[c1]]
      | t :: ts => (c1 :: t) :: ts

/-- Python `s.split("- ")[-1]`: the last chunk of the split. -/
def lastSplit (l : List Char) : List Char :=
  (splitDash l).getLastD []

/-- `salario_limpo = salario_pred.split("- ")[-1]` (`app.py:218`), on strings. -/
def salario_limpo (s : String) : String :=
  String.mk (lastSplit s.data)

/-- The separator `"- "` occurs somewhere in `l`. -/
def occursDash (l : List Char) : Prop :=
  ∃ a b, l = a ++ '-' :: ' ' :: b

/-- Boolean test for an occurrence of the separator `"- "`. -/
def containsDash : List Char → Bool
  | [] => false
  | [_] => false
  | c1 :: c2 :: rest => (decide (c1 = '-') && decide (c2 = ' ')) || containsDash (c2 :: rest)

/-- The suffix of `l` that follows the last (rightmost) occurrence of the
separator `"- "`; `none` when the separator does not occur.  An occurrence
starting further right takes precedence over one starting at the head. -/
def afterLastDash : List Char → Option (List Char)
  | [] => none
  | [_] => none
  | c1 :: c2 :: rest =>
    match afterLastDash (c2 :: rest) with
    | some r => some r
    | none => if c1 = '-' ∧ c2 = ' ' then some rest else none

/-- Boolean test: does `l` end with the separator `"- "`? -/
def endsDashB (l : List Char) : Bool :=
  match l.reverse with
  | ' ' :: '-' :: _ => true
  | _ => false

/-- Python `len(df[(df["nivel"] == nivel) & (df["ufOndeMora"] == uf)])`:
the rows of the reference dataset whose seniority and state match the
submitted profile (`app.py:252-255`). -/
def similar_profiles (data_template : List Row) (nivel uf : String) : List Row :=
  data_template.filter (fun r => r.nivel == nivel && r.ufOndeMora == uf)

/-- `len(similar_profiles)` (`app.py:259`). -/
def similar_count (data_template : List Row) (nivel uf : String) : Nat :=
  (similar_profiles data_template nivel uf).length

/-- `cargo_count = len(data_template[data_template["cargoAtual"] == cargo])`
(`app.py:264`). -/
def cargo_count (data_template : List Row) (cargo : String) : Nat :=
  (data_template.filter (fun r => r.cargoAtual == cargo)).length

/-- `cargo_percentage = (cargo_count / len(data_template)) * 100`
(`app.py:265`).  Python `/` raises `ZeroDivisionError` when
`len(data_template) == 0`; the raised exception is embedded as `none`. -/
def cargo_percentage (data_template : List Row) (cargo : String) : Option ℚ :=
  if data_template.length = 0 then none
  else some ((cargo_count data_template cargo : ℚ) / (data_template.length : ℚ) * 100)

/-- The single-row dataframe `user_data` assembled from the form values
(`app.py:204-213`), as an association list from column name to cell value. -/
def user_data (u : UserInput) : List (String × FieldValue) :=
  [("idade", FieldValue.int u.idade),
   ("genero", FieldValue.str u.genero),
   ("pcd", FieldValue.str u.pcd),
   ("ufOndeMora", FieldValue.str u.uf),
   ("cargoAtual", FieldValue.str u.cargo),
   ("nivel", FieldValue.str u.nivel),
   ("tempoDeExperienciaDados", FieldValue.str u.tempo_exp_dados),
   ("tempoDeExperienciaEmTi", FieldValue.str u.tempo_exp_ti)]

/-- Pandas column selection `user_data[model.feature_names_in_]`
(`app.py:217`): pick, in the given order, the named columns of the single-row
record; selecting a missing column raises (`none`). -/
def selectColumns (record : List (String × FieldValue)) : List String → Option (List (String × FieldValue))
  | [] => some []
  | n :: ns =>
    match record.lookup n, selectColumns record ns with
    | some v, some rest => some ((n, v) :: rest)
    | _, _ => none

/-- The prediction pipeline of the spec: invoke the (external, here abstract)
predictor on the profile and post-process the raw label with
`salario_limpo` (`app.py:217-218`). -/
def predict_bracket (predict : UserInput → String) (u : UserInput) : String :=
  salario_limpo (predict u)

/-- A profile is valid when each categorical field value appears in the
corresponding column of the reference dataset (the form only offers such
values). -/
def valid_profile (data_template : List Row) (u : UserInput) : Prop :=
  (∃ r ∈ data_template, r.genero = u.genero) ∧
  (∃ r ∈ data_template, r.pcd = u.pcd) ∧
  (∃ r ∈ data_template, r.ufOndeMora = u.uf) ∧
  (∃ r ∈ data_template, r.cargoAtual = u.cargo) ∧
  (∃ r ∈ data_template, r.nivel = u.nivel) ∧
  (∃ r ∈ data_template, r.tempoDeExperienciaDados = u.tempo_exp_dados) ∧
  (∃ r ∈ data_template, r.tempoDeExperienciaEmTi = u.tempo_exp_ti)

/-- Outcome of the submission handler: either the rendered result (bracket,
similar-profile count, job-share percentage) or a caught-and-displayed
error. -/
inductive RenderOutcome where
  | success (faixa : String) (similar : Nat) (cargo_pct : ℚ)
  | error (msg : String)
deriving DecidableEq

/-- The `if submitted:` handler body (`app.py:201-280`): assemble `user_data`,
select the predictor feature columns, predict, post-process, and compute
the two statistics; any exception raised inside the `try` block
(`app.py:215-280`) is caught by the `except` clause and displayed/logged as
an error instead of propagating. -/
def submitted_handler (predictM : List (String × FieldValue) → Except String String)
    (feature_names : List String) (data_template : List Row) (u : UserInput) :
    RenderOutcome :=
  match selectColumns (user_data u) feature_names with
  | none => RenderOutcome.error "❌ Erro na predição: KeyError"
  | some feats =>
    match predictM feats with
    | Except.error e => RenderOutcome.error ("❌ Erro na predição: " ++ e)
    | Except.ok salario_pred =>
      match cargo_percentage data_template u.cargo with
      | none => RenderOutcome.error "❌ Erro na predição: division by zero"
      | some pct =>
        RenderOutcome.success (salario_limpo salario_pred)
          (similar_count data_template u.nivel u.uf) pct

/-- An entry of `mlflow.search_registered_models()`: a name and the version
numbers of its latest registered versions. -/
structure RegisteredModel where
  name : String
  latest_versions : List Int
deriving DecidableEq

/-- Python `max([x, ...])` on a non-empty list, as a fold from its head. -/
def pyMax (v : Int) (vs : List Int) : Int := vs.foldl max v

/-- Python `min([x, ...])` on a non-empty list, as a fold from its head. -/
def pyMin (v : Int) (vs : List Int) : Int := vs.foldl min v

/-- `load_model` (`app.py:22-41`): filter the registry for models named
`salario-model`; if none, report and stop; otherwise load the maximal
version among `models[0].latest_versions` (Python `max` of an empty list, or
a failing load, raises and is caught, reported and stopped).  `st.stop` and
every caught exception halt processing; both are embedded as
`Except.error`. -/
def load_model {α : Type} (registry : List RegisteredModel) (loadM : Int → Option α) :
    Except String (α × Int) :=
  match registry.filter (fun m => m.name == "salario-model") with
  | [] => Except.error "❌ Modelo salario-model não encontrado no MLflow"
  | m :: _ =>
    match m.latest_versions with
    | [] => Except.error "❌ Erro ao carregar modelo: max of empty sequence"
    | v :: vs =>
      match loadM (pyMax v vs) with
      | none => Except.error "❌ Erro ao carregar modelo"
      | some p => Except.ok (p, pyMax v vs)

/-- `data_template["genero"].unique()` (`app.py:142`). -/
def form_options_genero (data_template : List Row) : List String :=
  (data_template.map Row.genero).dedup

/-- `data_template["pcd"].unique()` (`app.py:148`). -/
def form_options_pcd (data_template : List Row) : List String :=
  (data_template.map Row.pcd).dedup

/-- `data_template["ufOndeMora"].sort_values().unique().tolist()`
(`app.py:152`). -/
def form_options_uf (data_template : List Row) : List String :=
  ((data_template.map Row.ufOndeMora).insertionSort (· ≤ ·)).dedup

/-- `data_template["cargoAtual"].sort_values().unique().tolist()`
(`app.py:162`). -/
def form_options_cargo (data_template : List Row) : List String :=
  ((data_template.map Row.cargoAtual).insertionSort (· ≤ ·)).dedup

/-- `data_template["nivel"].sort_values().unique()` (`app.py:169`). -/
def form_options_nivel (data_template : List Row) : List String :=
  ((data_template.map Row.nivel).insertionSort (· ≤ ·)).dedup

/-- `data_template["tempoDeExperienciaDados"].sort_values().unique().tolist()`
(`app.py:179`). -/
def form_options_tempo_dados (data_template : List Row) : List String :=
  ((data_template.map Row.tempoDeExperienciaDados).insertionSort (· ≤ ·)).dedup

/-- `data_template["tempoDeExperienciaEmTi"].sort_values().unique().tolist()`
(`app.py:186`). -/
def form_options_tempo_ti (data_template : List Row) : List String :=
  ((data_template.map Row.tempoDeExperienciaEmTi).insertionSort (· ≤ ·)).dedup

/-- `int(data_template["idade"].min())` (`app.py:134`); `min` of an empty
column raises, embedded as `none`. -/
def idade_min (data_template : List Row) : Option Int :=
  match data_template.map Row.idade with
  | [] => none
  | v :: vs => some (pyMin v vs)

/-- `max_value=100` of the `idade` number input (`app.py:135`): a fixed
constant, not derived from the dataset. -/
def idade_max_value : Int := 100

/-- `value=30` of the `idade` number input (`app.py:136`). -/
def idade_default : Int := 30

/-- The ages the `idade` number input accepts: between the dataset minimum
and the constant `100` (`app.py:132-138`). -/
def idade_valid (data_template : List Row) (x : Int) : Prop :=
  match idade_min data_template with
  | none => False
  | some m => m ≤ x ∧ x ≤ idade_max_value

/-- A concrete dataset row used by witnesses. -/
def row1 : Row :=
  ⟨25, "Feminino", "Não", "SP", "Data Engineer", "Pleno", "de 1 a 2 anos", "de 3 a 4 anos"⟩

/-- A one-row concrete reference dataset used by witnesses. -/
def data1 : List Row := [row1]

/-- A concrete submitted profile, valid for `data1`, used by witnesses. -/
def user1 : UserInput :=
  ⟨30, "Feminino", "Não", "SP", "Data Engineer", "Pleno", "de 1 a 2 anos", "de 3 a 4 anos"⟩

/-- A row with job title `Data Engineer` for the 100-row example dataset. -/
def row_de : Row :=
  ⟨30, "Masculino", "Não", "SP", "Data Engineer", "Sênior", "de 1 a 2 anos", "de 3 a 4 anos"⟩

/-- A row with a different job title for the 100-row example dataset. -/
def row_ds : Row :=
  ⟨30, "Masculino", "Não", "RJ", "Data Scientist", "Pleno", "de 1 a 2 anos", "de 3 a 4 anos"⟩

/-- The 100-row example dataset of the spec: 10 rows titled `Data Engineer`
and 90 rows titled otherwise. -/
def data100 : List Row := List.replicate 10 row_de ++ List.replicate 90 row_ds

/-- The eight feature names of the assembled record, in record order; a
concrete stand-in for `model.feature_names_in_`. -/
def feature_names8 : List String :=
  ["idade", "genero", "pcd", "ufOndeMora", "cargoAtual", "nivel",
   "tempoDeExperienciaDados", "tempoDeExperienciaEmTi"]

/-- A concrete predictor whose raw label carries the separator. -/
def predict_faixa : UserInput → String := fun _ => "Faixa - R$ 6.000-12.000"

/-- A concrete predictor that always raises, used by witnesses. -/
def predict_boom : List (String × FieldValue) → Except String String :=
  fun _ => Except.error "boom"

/-- A concrete one-model registry used by witnesses. -/
def reg0 : List RegisteredModel := [⟨"salario-model", [1, 3, 2]⟩]

/-- A concrete always-succeeding loader used by witnesses. -/
def loadM0 : Int → Option Int := fun v => some v

theorem not_occursDash_nil : ¬ occursDash [] := by
  rintro ⟨a, b, h⟩
  simp at h

theorem not_occursDash_single (c : Char) : ¬ occursDash [c] := by
  rintro ⟨a, b, h⟩
  cases a with
  | nil => simp at h
  | cons x xs => simp at h

theorem occursDash_cons (c : Char) (l : List Char) :
    occursDash (c :: l) ↔ (c = '-' ∧ ∃ b, l = ' ' :: b) ∨ occursDash l := by
  constructor
  · rintro ⟨a, b, h⟩
    cases a with
    | nil =>
      simp only [List.nil_append, List.cons.injEq] at h
      exact Or.inl ⟨h.1, b, h.2⟩
    | cons x xs =>
      simp only [List.cons_append, List.cons.injEq] at h
      exact Or.inr ⟨xs, b, h.2⟩
  · rintro (⟨hc, b, hb⟩ | ⟨a, b, h⟩)
    · exact ⟨[], b, by simp [hc, hb]⟩
    · exact ⟨c :: a, b, by simp [h]⟩

theorem containsDash_iff (l : List Char) : containsDash l = true ↔ occursDash l := by
  induction l using containsDash.induct with
  | case1 =>
    simp [containsDash, not_occursDash_nil]
  | case2 c =>
    simp [containsDash, not_occursDash_single]
  | case3 c1 c2 rest ih =>
    rw [containsDash, occursDash_cons]
    simp only [Bool.or_eq_true, Bool.and_eq_true, decide_eq_true_eq, ih]
    constructor
    · rintro (⟨h1, h2⟩ | h)
      · exact Or.inl ⟨h1, by rw [occursDash_cons] at *; exact ⟨rest, by simp [h2]⟩⟩
      · exact Or.inr h
    · rintro (⟨h1, b, hb⟩ | h)
      · rcases List.cons.injEq c2 rest ' ' b ▸ hb with h
        exact Or.inl ⟨h1, by injection hb with h2 h3⟩
      · exact Or.inr h

theorem splitDash_pos (c1 c2 : Char) (rest : List Char) (h : c1 = '-' ∧ c2 = ' ') :
    splitDash (c1 :: c2 :: rest) = [] :: splitDash rest := by
  simp only [splitDash, if_pos h]

theorem splitDash_neg (c1 c2 : Char) (rest t : List Char) (ts : List (List Char))
    (h : ¬ (c1 = '-' ∧ c2 = ' ')) (hs : splitDash (c2 :: rest) = t :: ts) :
    splitDash (c1 :: c2 :: rest) = (c1 :: t) :: ts := by
  simp only [splitDash, if_neg h, hs]

theorem splitDash_ne_nil (l : List Char) : splitDash l ≠ [] := by
  induction l using splitDash.induct with
  | case1 => simp [splitDash]
  | case2 c => simp [splitDash]
  | case3 c1 c2 rest h ih =>
    rw [splitDash_pos c1 c2 rest h]
    simp
  | case4 c1 c2 rest h hs ih => exact absurd hs ih
  | case5 c1 c2 rest h t ts hs ih =>
    rw [splitDash_neg c1 c2 rest t ts h hs]
    simp

theorem getLastD_of_ne_nil {α : Type} (l : List α) (d d' : α) (h : l ≠ []) :
    l.getLastD d = l.getLastD d' := by
  cases l with
  | nil => exact absurd rfl h
  | cons x xs => simp only [List.getLastD_cons]

theorem lastSplit_pos (rest : List Char) :
    lastSplit ('-' :: ' ' :: rest) = lastSplit rest := by
  unfold lastSplit
  rw [splitDash_pos '-' ' ' rest ⟨rfl, rfl⟩, List.getLastD_cons]

/-- Structure of `splitDash`: either the separator does not occur and the
split is the singleton `[l]`, or it occurs, the split has at least two
chunks, and the last chunk is a suffix of `l` that follows an occurrence of
the separator and itself contains no occurrence. -/
theorem splitDash_structure (l : List Char) :
    (¬ occursDash l ∧ splitDash l = [l]) ∨
    (occursDash l ∧ 2 ≤ (splitDash l).length ∧
      ∃ a, l = a ++ '-' :: ' ' :: lastSplit l ∧ ¬ occursDash (lastSplit l)) := by
  induction l using splitDash.induct with
  | case1 => exact Or.inl ⟨not_occursDash_nil, rfl⟩
  | case2 c => exact Or.inl ⟨not_occursDash_single c, rfl⟩
  | case3 c1 c2 rest h ih =>
    obtain ⟨h1, h2⟩ := h
    subst h1
    subst h2
    have hlast : lastSplit ('-' :: ' ' :: rest) = lastSplit rest := lastSplit_pos rest
    refine Or.inr ⟨⟨[], rest, by simp⟩, ?_, ?_⟩
    · rw [splitDash_pos '-' ' ' rest ⟨rfl, rfl⟩]
      cases hs : splitDash rest with
      | nil => exact absurd hs (splitDash_ne_nil rest)
      | cons t ts => simp
    · rcases ih with ⟨hno, hs⟩ | ⟨hocc, hlen, a, heq, hnol⟩
      · have hrest : lastSplit rest = rest := by
          unfold lastSplit
          rw [hs, List.getLastD_cons, List.getLastD_nil]
        rw [hlast, hrest]
        exact ⟨[], rfl, hno⟩
      · rw [hlast]
        exact ⟨'-' :: ' ' :: a, congrArg (fun x => '-' :: ' ' :: x) heq, hnol⟩
  | case4 c1 c2 rest h hs ih => exact absurd hs (splitDash_ne_nil _)
  | case5 c1 c2 rest h t ts hs ih =>
    have hsplit : splitDash (c1 :: c2 :: rest) = (c1 :: t) :: ts :=
      splitDash_neg c1 c2 rest t ts h hs
    rcases ih with ⟨hno, hone⟩ | ⟨hocc, hlen, a, heq, hnol⟩
    · rw [hs] at hone
      injection hone with ht hts
      refine Or.inl ⟨?_, ?_⟩
      · rw [occursDash_cons]
        rintro (⟨h1, b, hb⟩ | hr)
        · exact h ⟨h1, by injection hb⟩
        · exact hno hr
      · rw [hsplit, ht, hts]
    · have hts : ts ≠ [] := by
        rw [hs] at hlen
        simp only [List.length_cons] at hlen
        intro hnil
        rw [hnil] at hlen
        simp at hlen
      have hlast : lastSplit (c1 :: c2 :: rest) = lastSplit (c2 :: rest) := by
        unfold lastSplit
        rw [hsplit, hs, List.getLastD_cons, List.getLastD_cons]
        exact getLastD_of_ne_nil ts _ _ hts
      refine Or.inr ⟨?_, ?_, ?_⟩
      · rw [occursDash_cons]
        exact Or.inr hocc
      · rw [hsplit]
        simp only [List.length_cons]
        rw [hs] at hlen
        simpa using hlen
      · rw [hlast]
        exact ⟨c1 :: a, congrArg (fun x => c1 :: x) heq, hnol⟩

theorem afterLastDash_cons2 (c1 c2 : Char) (rest : List Char) :
    afterLastDash (c1 :: c2 :: rest) =
      match afterLastDash (c2 :: rest) with
      | some r => some r
      | none => if c1 = '-' ∧ c2 = ' ' then some rest else none := by
  simp only [afterLastDash]

theorem afterLastDash_space (rest : List Char) :
    afterLastDash (' ' :: rest) = afterLastDash rest := by
  cases rest with
  | nil => rfl
  | cons r rs =>
    rw [afterLastDash_cons2]
    cases h : afterLastDash (r :: rs) with
    | some v => rfl
    | none => simp

theorem afterLastDash_none_iff (l : List Char) :
    afterLastDash l = none ↔ ¬ occursDash l := by
  induction l using afterLastDash.induct with
  | case1 => simp [afterLastDash, not_occursDash_nil]
  | case2 c => simp [afterLastDash, not_occursDash_single]
  | case3 c1 c2 rest r hr ih =>
    rw [afterLastDash_cons2, hr]
    simp only [reduceCtorEq, false_iff, not_not]
    rw [occursDash_cons]
    refine Or.inr ?_
    by_contra hno
    exact absurd (ih.mpr hno) (by simp [hr])
  | case4 c1 c2 rest hr h ih =>
    rw [afterLastDash_cons2, hr, if_pos h]
    simp only [reduceCtorEq, false_iff, not_not]
    rw [occursDash_cons]
    exact Or.inl ⟨h.1, rest, by rw [h.2]⟩
  | case5 c1 c2 rest hr h ih =>
    rw [afterLastDash_cons2, hr, if_neg h]
    have hno : ¬ occursDash (c2 :: rest) := ih.mp hr
    simp only [true_iff]
    rw [occursDash_cons]
    rintro (⟨h1, b, hb⟩ | hocc)
    · exact h ⟨h1, by injection hb⟩
    · exact hno hocc

theorem lastSplit_eq_afterLastDash (l : List Char) :
    lastSplit l = (afterLastDash l).getD l := by
  induction l using splitDash.induct with
  | case1 => rfl
  | case2 c => rfl
  | case3 c1 c2 rest h ih =>
    obtain ⟨h1, h2⟩ := h
    subst h1
    subst h2
    rw [lastSplit_pos, afterLastDash_cons2, afterLastDash_space]
    cases hr : afterLastDash rest with
    | some r =>
      rw [hr] at ih
      simpa using ih
    | none =>
      rw [hr] at ih
      simpa using ih
  | case4 c1 c2 rest h hs ih => exact absurd hs (splitDash_ne_nil _)
  | case5 c1 c2 rest h t ts hs ih =>
    have hsplit : splitDash (c1 :: c2 :: rest) = (c1 :: t) :: ts :=
      splitDash_neg c1 c2 rest t ts h hs
    rw [afterLastDash_cons2]
    cases ha : afterLastDash (c2 :: rest) with
    | some r =>
      have hocc : occursDash (c2 :: rest) := by
        by_contra hno
        exact absurd ((afterLastDash_none_iff _).mpr hno) (by simp [ha])
      have hts : ts ≠ [] := by
        rcases splitDash_structure (c2 :: rest) with ⟨hno, _⟩ | ⟨_, hlen, _⟩
        · exact absurd hocc hno
        · rw [hs] at hlen
          simp only [List.length_cons] at hlen
          intro hnil
          rw [hnil] at hlen
          simp at hlen
      rw [ha] at ih
      simp only [Option.getD_some] at ih ⊢
      unfold lastSplit
      rw [hsplit, List.getLastD_cons]
      unfold lastSplit at ih
      rw [hs, List.getLastD_cons] at ih
      rw [getLastD_of_ne_nil ts (c1 :: t) t hts]
      exact ih
    | none =>
      have hno : ¬ occursDash (c2 :: rest) := (afterLastDash_none_iff _).mp ha
      have hone : splitDash (c2 :: rest) = [c2 :: rest] := by
        rcases splitDash_structure (c2 :: rest) with ⟨_, hone⟩ | ⟨hocc, _⟩
        · exact hone
        · exact absurd hocc hno
      rw [hs] at hone
      injection hone with ht hts
      subst ht
      subst hts
      unfold lastSplit
      rw [hsplit, List.getLastD_cons, List.getLastD_nil, if_neg h]
      rfl

theorem String_mk_data (s : String) : String.mk s.data = s := rfl

theorem endsDashB_append (a : List Char) : endsDashB (a ++ '-' :: ' ' :: []) = true := by
  unfold endsDashB
  rw [List.reverse_append]
  simp

theorem pyMax_mem (v : Int) (vs : List Int) : pyMax v vs ∈ v :: vs := by
  induction vs generalizing v with
  | nil => simp [pyMax]
  | cons y ys ih =>
    have h : pyMax v (y :: ys) = pyMax (max v y) ys := rfl
    rw [h]
    rcases List.mem_cons.mp (ih (max v y)) with he | hm
    · rcases max_choice v y with hv | hy
      · rw [he, hv]
        exact List.mem_cons_self _ _
      · rw [he, hy]
        exact List.mem_cons_of_mem _ (List.mem_cons_self _ _)
    · exact List.mem_cons_of_mem _ (List.mem_cons_of_mem _ hm)

theorem le_pyMax (v : Int) (vs : List Int) : ∀ x ∈ v :: vs, x ≤ pyMax v vs := by
  induction vs generalizing v with
  | nil =>
    intro x hx
    rcases List.mem_cons.mp hx with rfl | hm
    · exact le_refl x
    · simp at hm
  | cons y ys ih =>
    intro x hx
    have h : pyMax v (y :: ys) = pyMax (max v y) ys := rfl
    rw [h]
    have hhead : max v y ≤ pyMax (max v y) ys :=
      ih (max v y) (max v y) (List.mem_cons_self _ _)
    rcases List.mem_cons.mp hx with rfl | hm
    · exact le_trans (le_max_left x y) hhead
    · rcases List.mem_cons.mp hm with rfl | hm'
      · exact le_trans (le_max_right v x) hhead
      · exact ih (max v y) x (List.mem_cons_of_mem _ hm')

theorem pyMin_mem (v : Int) (vs : List Int) : pyMin v vs ∈ v :: vs := by
  induction vs generalizing v with
  | nil => simp [pyMin]
  | cons y ys ih =>
    have h : pyMin v (y :: ys) = pyMin (min v y) ys := rfl
    rw [h]
    rcases List.mem_cons.mp (ih (min v y)) with he | hm
    · rcases min_choice v y with hv | hy
      · rw [he, hv]
        exact List.mem_cons_self _ _
      · rw [he, hy]
        exact List.mem_cons_of_mem _ (List.mem_cons_self _ _)
    · exact List.mem_cons_of_mem _ (List.mem_cons_of_mem _ hm)

theorem pyMin_le (v : Int) (vs : List Int) : ∀ x ∈ v :: vs, pyMin v vs ≤ x := by
  induction vs generalizing v with
  | nil =>
    intro x hx
    rcases List.mem_cons.mp hx with rfl | hm
    · exact le_refl x
    · simp at hm
  | cons y ys ih =>
    intro x hx
    have h : pyMin v (y :: ys) = pyMin (min v y) ys := rfl
    rw [h]
    have hhead : pyMin (min v y) ys ≤ min v y :=
      ih (min v y) (min v y) (List.mem_cons_self _ _)
    rcases List.mem_cons.mp hx with rfl | hm
    · exact le_trans hhead (min_le_left x y)
    · rcases List.mem_cons.mp hm with rfl | hm'
      · exact le_trans hhead (min_le_right v x)
      · exact ih (min v y) x (List.mem_cons_of_mem _ hm')

theorem selectColumns_spec (record : List (String × FieldValue)) (names : List String)
    (h : ∀ n ∈ names, (record.lookup n).isSome) :
    ∃ sel, selectColumns record names = some sel ∧ sel.map Prod.fst = names ∧
      ∀ p ∈ sel, record.lookup p.1 = some p.2 := by
  induction names with
  | nil => exact ⟨[], rfl, rfl, by simp⟩
  | cons n ns ih =>
    have hn := h n (List.mem_cons_self _ _)
    obtain ⟨v, hv⟩ := Option.isSome_iff_exists.mp hn
    obtain ⟨sel, hsel, hmap, hvals⟩ := ih (fun m hm => h m (List.mem_cons_of_mem _ hm))
    refine ⟨(n, v) :: sel, ?_, ?_, ?_⟩
    · simp only [selectColumns, hv, hsel]
    · simp [hmap]
    · intro p hp
      rcases List.mem_cons.mp hp with rfl | hp'
      · exact hv
      · exact hvals p hp'

theorem mem_map_exists {f : Row → String} {data : List Row} {v : String}
    (h : v ∈ data.map f) : ∃ r ∈ data, f r = v := by
  obtain ⟨r, hr, he⟩ := List.mem_map.mp h
  exact ⟨r, hr, he⟩

theorem mem_sorted_dedup {f : Row → String} {data : List Row} {v : String}
    (h : v ∈ ((data.map f).insertionSort (fun a b => a ≤ b)).dedup) :
    ∃ r ∈ data, f r = v :=
  mem_map_exists ((List.perm_insertionSort (fun a b => a ≤ b) (data.map f)).mem_iff.mp
    (List.mem_dedup.mp h))

/-- Claim C1: for every raw label string returned by the predictor, the
pipeline displays as the bracket (`salario_limpo`) the substring after the
last occurrence of the separator `"- "` (`afterLastDash`); if the separator
is absent from the label (`containsDash` is `false`), the whole string is
used unchanged. -/
theorem C1_bracket_is_suffix_after_last_separator (s : String) :
    salario_limpo s = String.mk ((afterLastDash s.data).getD s.data) ∧
    (containsDash s.data = false → salario_limpo s = s) := by
  constructor
  · unfold salario_limpo
    rw [lastSplit_eq_afterLastDash]
  · intro h
    have hno : ¬ occursDash s.data := by
      rw [← containsDash_iff, h]
      simp
    rcases splitDash_structure s.data with ⟨_, hone⟩ | ⟨hocc, _⟩
    · unfold salario_limpo lastSplit
      rw [hone, List.getLastD_cons, List.getLastD_nil]
    · exact absurd hocc hno

/-- Witness for claim C1: a label without the separator passes through
unchanged, and the spec example label is cut after its last separator. -/
theorem C1_witness :
    salario_limpo "Pleno" = "Pleno" ∧
    salario_limpo "Faixa - R$ 6.000-12.000" = "R$ 6.000-12.000" :=
  ⟨(C1_bracket_is_suffix_after_last_separator "Pleno").2 (by decide),
   ((C1_bracket_is_suffix_after_last_separator "Faixa - R$ 6.000-12.000").1).trans (by decide)⟩

/-- Claim C2 (code bug): the code does not guard the division in
`cargo_percentage` — on an empty reference dataset Python raises
`ZeroDivisionError` (embedded: `none`), which the submission handler catches
and reports as a prediction error; no `job_share` of `0` is produced. -/
theorem C2_empty_dataset_division_raises :
    cargo_percentage [] "Data Engineer" = none ∧
    submitted_handler (fun _ => Except.ok "Faixa - R$ 6.000-12.000")
        feature_names8 [] user1 =
      RenderOutcome.error "❌ Erro na predição: division by zero" := by
  exact ⟨rfl, by decide⟩

/-- Claim C3 counterexample: a valid profile together with a predictor whose
raw label ends with the separator makes `predict_bracket` return the empty
string, refuting non-emptiness as claimed. -/
theorem C3_counterexample :
    valid_profile data1 user1 ∧ predict_bracket (fun _ => "Faixa - ") user1 = "" := by
  refine ⟨?_, by decide⟩
  unfold valid_profile
  decide

/-- Claim C3 (amended): for every profile and predictor, `predict_bracket`
returns a string with no occurrence of the separator `"- "`; and the result
is non-empty provided the raw label is non-empty and does not end with the
separator. -/
theorem C3_no_separator_and_nonempty (predict : UserInput → String) (u : UserInput) :
    containsDash (predict_bracket predict u).data = false ∧
    (predict u ≠ "" → endsDashB (predict u).data = false →
      predict_bracket predict u ≠ "") := by
  have hdata : (predict_bracket predict u).data = lastSplit (predict u).data := rfl
  constructor
  · rw [hdata]
    have hno : ¬ occursDash (lastSplit (predict u).data) := by
      rcases splitDash_structure (predict u).data with ⟨hno, hone⟩ | ⟨_, _, _, _, hnol⟩
      · unfold lastSplit
        rw [hone, List.getLastD_cons, List.getLastD_nil]
        exact hno
      · exact hnol
    cases hb : containsDash (lastSplit (predict u).data) with
    | false => rfl
    | true => exact absurd ((containsDash_iff _).mp hb) hno
  · intro h1 h2 hres
    have hnil : lastSplit (predict u).data = [] := by
      have : String.mk (lastSplit (predict u).data) = String.mk [] := hres
      injection this
    rcases splitDash_structure (predict u).data with ⟨_, hone⟩ | ⟨_, _, a, heq, _⟩
    · have : lastSplit (predict u).data = (predict u).data := by
        unfold lastSplit
        rw [hone, List.getLastD_cons, List.getLastD_nil]
      rw [this] at hnil
      exact h1 (by
        have := congrArg String.mk hnil
        rwa [String_mk_data] at this)
    · rw [hnil] at heq
      have : endsDashB (predict u).data = true := by
        rw [heq]
        exact endsDashB_append a
      rw [this] at h2
      exact absurd h2 (by simp)

/-- Witness for claim C3 (amended): the spec example predictor yields a
non-empty bracket free of the separator. -/
theorem C3_witness :
    containsDash (predict_bracket predict_faixa user1).data = false ∧
    predict_bracket predict_faixa user1 ≠ "" :=
  ⟨(C3_no_separator_and_nonempty predict_faixa user1).1,
   (C3_no_separator_and_nonempty predict_faixa user1).2 (by decide) (by decide)⟩

/-- Claim C4: before prediction the pipeline selects from the assembled
single-row record `user_data` exactly the fields the predictor declares, in
the order the predictor declares, and passes only those: the selection
succeeds, its column names are the declared names in order, and every
selected value is the value the record holds for that name. -/
theorem C4_selects_declared_features_in_order (u : UserInput) (names : List String)
    (h : ∀ n ∈ names, ((user_data u).lookup n).isSome) :
    ∃ sel, selectColumns (user_data u) names = some sel ∧
      sel.map Prod.fst = names ∧ ∀ p ∈ sel, (user_data u).lookup p.1 = some p.2 :=
  selectColumns_spec (user_data u) names h

/-- Witness for claim C4: selecting a reordered subset of the record. -/
theorem C4_witness :
    ∃ sel, selectColumns (user_data user1) ["nivel", "idade"] = some sel ∧
      sel.map Prod.fst = ["nivel", "idade"] ∧
      ∀ p ∈ sel, (user_data user1).lookup p.1 = some p.2 :=
  C4_selects_declared_features_in_order user1 ["nivel", "idade"] (by decide)

/-- Claim C5: `similar_count` equals the number of dataset rows whose
seniority equals that of the profile and whose state equals that of the
profile; it never exceeds the row count, and when no row matches it
is `0` (no exception is raised: the embedding is a total function). -/
theorem C5_similar_count_is_matching_rows (data_template : List Row) (nivel uf : String) :
    similar_count data_template nivel uf =
      data_template.countP (fun r => decide (r.nivel = nivel ∧ r.ufOndeMora = uf)) ∧
    similar_count data_template nivel uf ≤ data_template.length ∧
    ((∀ r ∈ data_template, ¬ (r.nivel = nivel ∧ r.ufOndeMora = uf)) →
      similar_count data_template nivel uf = 0) := by
  have hpt : ∀ r : Row,
      (r.nivel == nivel && r.ufOndeMora == uf) =
        decide (r.nivel = nivel ∧ r.ufOndeMora = uf) := by
    intro r
    by_cases h1 : r.nivel = nivel <;> by_cases h2 : r.ufOndeMora = uf <;> simp [h1, h2]
  refine ⟨?_, ?_, ?_⟩
  · unfold similar_count similar_profiles
    rw [← List.countP_eq_length_filter]
    exact List.countP_congr (fun r _ => by rw [hpt r])
  · exact List.length_filter_le _ _
  · intro hall
    unfold similar_count similar_profiles
    rw [List.length_eq_zero, List.filter_eq_nil_iff]
    intro r hr
    rw [hpt r]
    simpa using hall r hr

/-- Witness for claim C5: a profile filter matching no row yields `0`. -/
theorem C5_witness : similar_count data1 "Pleno" "RJ" = 0 :=
  (C5_similar_count_is_matching_rows data1 "Pleno" "RJ").2.2 (by decide)

/-- Claim C6: on a non-empty reference dataset, `cargo_percentage` is the
count of rows with the chosen job title, divided by the total row count,
times 100 (the exact value that the UI then formats to one decimal
place). -/
theorem C6_job_share_formula (data_template : List Row) (cargo : String)
    (h : data_template ≠ []) :
    cargo_percentage data_template cargo =
      some ((data_template.countP (fun r => decide (r.cargoAtual = cargo)) : ℚ) /
        (data_template.length : ℚ) * 100) := by
  have hpt : ∀ r : Row, (r.cargoAtual == cargo) = decide (r.cargoAtual = cargo) := by
    intro r
    by_cases h1 : r.cargoAtual = cargo <;> simp [h1]
  unfold cargo_percentage
  rw [if_neg (by rw [List.length_eq_zero]; exact h)]
  unfold cargo_count
  rw [← List.countP_eq_length_filter, List.countP_congr (fun r _ => by rw [hpt r])]

/-- Witness for claim C6: the spec example — 100 rows, 10 titled
`Data Engineer` — gives a job share of exactly `10`. -/
theorem C6_witness : cargo_percentage data100 "Data Engineer" = some 10 := by
  rw [C6_job_share_formula data100 "Data Engineer" (by decide)]
  rw [show data100.countP (fun r => decide (r.cargoAtual = "Data Engineer")) = 10 from by decide]
  rw [show data100.length = 100 from by decide]
  simp

/-- Claim C7: every failure inside the `try` block of the submission handler —
a malformed input (missing feature column) or a predictor exception — is
caught and reported as a displayed error message; the handler returns an
error outcome instead of re-raising. -/
theorem C7_prediction_failures_reported
    (predictM : List (String × FieldValue) → Except String String)
    (feature_names : List String) (data_template : List Row) (u : UserInput) :
    (selectColumns (user_data u) feature_names = none →
      ∃ msg, submitted_handler predictM feature_names data_template u =
        RenderOutcome.error msg) ∧
    (∀ feats e, selectColumns (user_data u) feature_names = some feats →
      predictM feats = Except.error e →
      submitted_handler predictM feature_names data_template u =
        RenderOutcome.error ("❌ Erro na predição: " ++ e)) := by
  constructor
  · intro hsel
    refine ⟨"❌ Erro na predição: KeyError", ?_⟩
    unfold submitted_handler
    rw [hsel]
  · intro feats e hsel hp
    unfold submitted_handler
    simp only [hsel, hp]

/-- Witness for claim C7: a predictor that raises makes the handler return
the displayed error, not an uncaught exception. -/
theorem C7_witness :
    submitted_handler predict_boom feature_names8 data1 user1 =
      RenderOutcome.error ("❌ Erro na predição: " ++ "boom") :=
  (C7_prediction_failures_reported predict_boom feature_names8 data1 user1).2
    (user_data user1) "boom" (by decide) rfl

/-- Claim C8: `load_model` reports an error (and halts — embedded as
`Except.error`) when no registered model named `salario-model` exists;
otherwise, when the loader succeeds, it returns the predictor loaded at the
maximal registered version, paired with that version identifier. -/
theorem C8_load_model_latest_version {α : Type}
    (registry : List RegisteredModel) (loadM : Int → Option α) :
    (registry.filter (fun m => m.name == "salario-model") = [] →
      ∃ msg, load_model registry loadM = Except.error msg) ∧
    (∀ m ms v vs p, registry.filter (fun m => m.name == "salario-model") = m :: ms →
      m.latest_versions = v :: vs → loadM (pyMax v vs) = some p →
      load_model registry loadM = Except.ok (p, pyMax v vs) ∧
      pyMax v vs ∈ v :: vs ∧ ∀ x ∈ v :: vs, x ≤ pyMax v vs) := by
  constructor
  · intro hf
    refine ⟨"❌ Modelo salario-model não encontrado no MLflow", ?_⟩
    unfold load_model
    simp only [hf]
  · intro m ms v vs p hf hv hl
    refine ⟨?_, pyMax_mem v vs, le_pyMax v vs⟩
    unfold load_model
    simp only [hf, hv, hl]

/-- Witness for claim C8: a registry whose `salario-model` has versions
`[1, 3, 2]` loads version `3`, the maximum. -/
theorem C8_witness :
    load_model reg0 loadM0 = Except.ok ((3 : Int), pyMax 1 [3, 2]) ∧
    pyMax 1 [3, 2] ∈ [(1 : Int), 3, 2] ∧ ∀ x ∈ [(1 : Int), 3, 2], x ≤ pyMax 1 [3, 2] :=
  (C8_load_model_latest_version reg0 loadM0).2 ⟨"salario-model", [1, 3, 2]⟩ [] 1 [3, 2] 3
    (by decide) rfl (by decide)

/-- Claim C9: every option offered by each of the seven categorical form
selectboxes is a value that appears in the corresponding column of the
reference dataset. -/
theorem C9_form_options_subset_of_dataset (data_template : List Row) :
    (∀ v ∈ form_options_genero data_template, ∃ r ∈ data_template, r.genero = v) ∧
    (∀ v ∈ form_options_pcd data_template, ∃ r ∈ data_template, r.pcd = v) ∧
    (∀ v ∈ form_options_uf data_template, ∃ r ∈ data_template, r.ufOndeMora = v) ∧
    (∀ v ∈ form_options_cargo data_template, ∃ r ∈ data_template, r.cargoAtual = v) ∧
    (∀ v ∈ form_options_nivel data_template, ∃ r ∈ data_template, r.nivel = v) ∧
    (∀ v ∈ form_options_tempo_dados data_template,
      ∃ r ∈ data_template, r.tempoDeExperienciaDados = v) ∧
    (∀ v ∈ form_options_tempo_ti data_template,
      ∃ r ∈ data_template, r.tempoDeExperienciaEmTi = v) := by
  refine ⟨?_, ?_, ?_, ?_, ?_, ?_, ?_⟩
  · intro v hv
    exact mem_map_exists (List.mem_dedup.mp hv)
  · intro v hv
    exact mem_map_exists (List.mem_dedup.mp hv)
  · intro v hv
    exact mem_sorted_dedup hv
  · intro v hv
    exact mem_sorted_dedup hv
  · intro v hv
    exact mem_sorted_dedup hv
  · intro v hv
    exact mem_sorted_dedup hv
  · intro v hv
    exact mem_sorted_dedup hv

/-- Witness for claim C9: concrete options of the one-row dataset come from
its row. -/
theorem C9_witness :
    (∃ r ∈ data1, r.genero = "Feminino") ∧ (∃ r ∈ data1, r.ufOndeMora = "SP") :=
  ⟨(C9_form_options_subset_of_dataset data1).1 "Feminino" (by decide),
   (C9_form_options_subset_of_dataset data1).2.2.1 "SP" (by decide)⟩

/-- Claim C10: on a non-empty reference dataset, the submitted age is an
integer accepted exactly when it is at least the dataset minimum of the
`idade` column and at most the fixed constant `100`; the default value is
`30`.  The upper bound `idade_max_value` is a constant, independent of the
dataset. -/
theorem C10_idade_bounds (data_template : List Row) (x : Int) (h : data_template ≠ []) :
    (idade_valid data_template x ↔
      ∃ m, (m ∈ data_template.map Row.idade ∧
        ∀ y ∈ data_template.map Row.idade, m ≤ y) ∧ m ≤ x ∧ x ≤ 100) ∧
    idade_default = 30 := by
  refine ⟨?_, rfl⟩
  cases hd : data_template.map Row.idade with
  | nil => exact absurd (List.map_eq_nil_iff.mp hd) h
  | cons v vs =>
    have hmin : idade_min data_template = some (pyMin v vs) := by
      unfold idade_min
      rw [hd]
    have hvalid : idade_valid data_template x ↔ pyMin v vs ≤ x ∧ x ≤ 100 := by
      unfold idade_valid idade_max_value
      rw [hmin]
    rw [hvalid]
    constructor
    · rintro ⟨hmx, hx⟩
      exact ⟨pyMin v vs, ⟨pyMin_mem v vs, pyMin_le v vs⟩, hmx, hx⟩
    · rintro ⟨m, ⟨hmem, hlb⟩, hmx, hx⟩
      exact ⟨le_trans (pyMin_le v vs m hmem) hmx, hx⟩

/-- Witness for claim C10: the one-row dataset accepts age 35 (its minimum
is 25), and the default is 30. -/
theorem C10_witness :
    (idade_valid data1 35 ↔
      ∃ m, (m ∈ data1.map Row.idade ∧ ∀ y ∈ data1.map Row.idade, m ≤ y) ∧
        m ≤ 35 ∧ (35 : Int) ≤ 100) ∧
    idade_default = 30 :=
  C10_idade_bounds data1 35 (by decide)
